import Mathlib

/-!
Verification development for the call-center quality-monitor pipeline
(`src/main.py`).  The pipeline's text processing is embedded shallowly:
Python strings become `List Char`, Python floats become `ℚ` (all values
arising in the pipeline are exact decimals, so rational arithmetic is a
faithful idealization), and Python's `round(x, k)` becomes rounding of a
rational to `k` decimal places.  Whitespace handling models the ASCII
whitespace class (space, tab, newline, carriage return, vertical tab,
form feed), and lowercasing models ASCII lowercasing via `Char.toLower`,
matching the behaviour of the Python code on the ASCII texts the
pipeline manipulates.
-/

/-- ASCII whitespace test, modelling the regex class `\s` used in
`clean_text` (`re.sub(r"\s+", " ", text)`) and `str.strip`. -/
def isSpaceChar (c : Char) : Bool :=
  c.toNat == 32 || c.toNat == 9 || c.toNat == 10 || c.toNat == 13 ||
  c.toNat == 11 || c.toNat == 12

/-- Replace every maximal run of whitespace by a single space: the effect
of `re.sub(r"\s+", " ", text)`. -/
def collapseWS : List Char → List Char
  | [] => []
  | [c] => if isSpaceChar c then [' '] else [c]
  | c :: d :: rest =>
      if isSpaceChar c && isSpaceChar d then collapseWS (d :: rest)
      else (if isSpaceChar c then ' ' else c) :: collapseWS (d :: rest)

/-- Drop leading whitespace (`str.lstrip`). -/
def stripLeft (l : List Char) : List Char := l.dropWhile isSpaceChar

/-- Drop trailing whitespace (`str.rstrip`). -/
def stripRight (l : List Char) : List Char := (stripLeft l.reverse).reverse

/-- Drop leading and trailing whitespace (`str.strip`). -/
def strip (l : List Char) : List Char := stripRight (stripLeft l)

/-- Normal-form invariant of the whitespace collapse: every whitespace
character is a plain space. -/
def spacesBlank (l : List Char) : Prop :=
  ∀ c ∈ l, isSpaceChar c = true → c = ' '

/-- Normal-form invariant of the whitespace collapse: no two adjacent
characters are both whitespace. -/
def noAdjSpace (l : List Char) : Prop :=
  List.Chain' (fun a b => ¬(isSpaceChar a = true ∧ isSpaceChar b = true)) l

/-- ASCII lowercasing of a string (`str.lower`). -/
def lowerStr (l : List Char) : List Char := l.map Char.toLower

/-- `clean_text` from `src/main.py`: empty input is returned unchanged;
otherwise whitespace runs are collapsed to single spaces, the result is
stripped, and lowercased. -/
def clean_text (s : List Char) : List Char :=
  if s = [] then [] else lowerStr (strip (collapseWS s))

/-- Is `p` a prefix of `s`? (auxiliary to the substring test). -/
def startsWithL : List Char → List Char → Bool
  | [], _ => true
  | _ :: _, [] => false
  | p :: ps, s :: ss => p == s && startsWithL ps ss

/-- Python's substring containment `p in s`. -/
def containsL (p : List Char) : List Char → Bool
  | [] => p.isEmpty
  | s :: ss => startsWithL p (s :: ss) || containsL p ss

/-- `NEGATIVE_WORDS` from `src/main.py`. -/
def NEGATIVE_WORDS : List (List Char) :=
  ["angry".data, "frustrated".data, "upset".data, "bad".data,
   "terrible".data, "awful".data, "broken".data, "damaged".data,
   "not working".data, "refund".data, "cancel".data, "delay".data,
   "issue".data, "problem".data, "complaint".data]

/-- `POSITIVE_WORDS` from `src/main.py`. -/
def POSITIVE_WORDS : List (List Char) :=
  ["happy".data, "satisfied".data, "great".data, "good".data,
   "excellent".data, "awesome".data, "thanks".data, "thank you".data,
   "love".data, "amazing".data, "perfect".data]

/-- Number of keywords of `words` present in `t` as substrings: the
embedding of `sum(1 for w in words if w in t)` — a presence count, each
keyword contributing at most once. -/
def countHits (words : List (List Char)) (t : List Char) : ℕ :=
  words.countP (fun w => containsL w t)

/-- Round a rational to two decimal places (`round(x, 2)`). -/
def round2 (q : ℚ) : ℚ := (round (q * 100) : ℤ) / 100

/-- Round a rational to one decimal place (`round(x, 1)`). -/
def round1 (q : ℚ) : ℚ := (round (q * 10) : ℤ) / 10

/-- `analyze_sentiment` from `src/main.py`: cleans the text, counts the
negative and positive keywords present, picks the label by comparing the
two counts, and derives a confidence from their total. -/
def analyze_sentiment (text : List Char) : List Char × ℚ :=
  let t := clean_text text
  let neg_count := countHits NEGATIVE_WORDS t
  let pos_count := countHits POSITIVE_WORDS t
  let label :=
    if neg_count > pos_count then "NEGATIVE".data
    else if pos_count > neg_count then "POSITIVE".data
    else "NEUTRAL".data
  let total := neg_count + pos_count
  let confidence : ℚ :=
    if total = 0 then 1/2 else min (95/100) (1/2 + (1/10) * (total : ℚ))
  (label, round2 confidence)

/-- `quality_score` from `src/main.py`: base 70, sentiment and length
adjustments, −5 per negative keyword present, rounded to one decimal and
clamped to `[0, 100]`. -/
def quality_score (text : List Char) (sentiment : List Char) : ℚ :=
  let score : ℚ := 70
  let score :=
    if sentiment = "NEGATIVE".data then score - 25
    else if sentiment = "POSITIVE".data then score + 10
    else score
  let L := text.length
  let score := if L < 60 then score - 10 else if L > 800 then score - 5 else score
  let neg_hits := countHits NEGATIVE_WORDS (lowerStr text)
  let score := score - 5 * (neg_hits : ℚ)
  max 0 (min 100 (round1 score))

/-- Decimal rendering of a rational, used where the Python f-string
interpolates the (float) score; integral values render as `d.0` like
Python floats. -/
def ratRepr (q : ℚ) : List Char :=
  if q.den = 1 then (toString q.num).data ++ ".0".data
  else (toString q.num).data ++ "/".data ++ (toString q.den).data

/-- `short_supervisor_summary` from `src/main.py` (its `text` parameter is
unused in the source as well). -/
def short_supervisor_summary (call_id : List Char) (sent : List Char)
    (score : ℚ) (_text : List Char) : List Char :=
  let severity :=
    if score < 40 then "🚨 Critical".data
    else if score < 70 then "⚠️ Needs Attention".data
    else "✅ OK".data
  let main_issue :=
    if sent = "NEGATIVE".data then "Customer sounds upset".data
    else "Customer is generally fine".data
  let action :=
    if score < 40 then "Review call and consider escalation.".data
    else if score < 70 then "Review call for coaching points.".data
    else "No immediate action required.".data
  severity ++ " | ".data ++ call_id ++ "\n• Sentiment: ".data ++ sent ++
    "\n• Score: ".data ++ ratRepr score ++ "/100\n• Notes: ".data ++
    main_issue ++ "\n• Action: ".data ++ action

/-- `short_customer_message` from `src/main.py`: a template keyed by the
sentiment label, defaulting the name to `Customer` when absent. -/
def short_customer_message (name : List Char) (sent : List Char) : List Char :=
  let name := if name = [] then "Customer".data else name
  if sent = "NEGATIVE".data then
    "Dear ".data ++ name ++
      ", we are sorry for the trouble you faced. Our team is reviewing your case and will reach out with a solution as soon as possible.".data
  else if sent = "POSITIVE".data then
    "Dear ".data ++ name ++
      ", thank you for your kind feedback. We are glad to have you as our customer!".data
  else
    "Dear ".data ++ name ++
      ", thank you for contacting us. We have noted your request and will make sure it is handled properly.".data

/-- Review-reason accumulation from `src/main.py` lines 227–232:
`LOW_SCORE` is appended first (when the call needs review), then
`NEG_SENTIMENT` (when the label is negative); an empty accumulation
yields the sentinel `OK`, otherwise a comma-separated join. -/
def review_reason_calc (needs_review : Bool) (sent_label : List Char) : List Char :=
  let reason : List (List Char) :=
    (if needs_review then ["LOW_SCORE".data] else []) ++
    (if sent_label = "NEGATIVE".data then ["NEG_SENTIMENT".data] else [])
  if reason.isEmpty then "OK".data else List.intercalate ", ".data reason

/-- The row assembled per analyzed call (`new_row` in `src/main.py`). -/
structure CallRecord where
  timestamp : List Char
  call_id : List Char
  customer_name : List Char
  channel : List Char
  sentiment : List Char
  sentiment_confidence : ℚ
  quality_score : ℚ
  needs_review : Bool
  review_reason : List Char
  transcript : List Char
  supervisor_summary : List Char
  customer_message : List Char
deriving DecidableEq

/-- The per-call processing block of `src/main.py` (lines 217–257):
clean, classify, score, decide review, accumulate reasons, generate both
messages, and assemble the row.  The timestamp is passed in, reflecting
its capture at invocation time. -/
def process_call (transcript_text call_id customer_name channel : List Char)
    (review_threshold : ℚ) (ts : List Char) : CallRecord :=
  let clean := clean_text transcript_text
  let sres := analyze_sentiment clean
  let sent_label := sres.1
  let sent_conf := sres.2
  let score := quality_score clean sent_label
  let needs_review : Bool := decide (score < review_threshold)
  let review_reason := review_reason_calc needs_review sent_label
  let sup_sum := short_supervisor_summary call_id sent_label score clean
  let cust_msg := short_customer_message customer_name sent_label
  { timestamp := ts
    call_id := call_id
    customer_name := customer_name
    channel := channel
    sentiment := sent_label
    sentiment_confidence := sent_conf
    quality_score := score
    needs_review := needs_review
    review_reason := review_reason
    transcript := strip transcript_text
    supervisor_summary := sup_sum
    customer_message := cust_msg }

/-- Spec-style sentiment adjustment term of the quality score (as the
code applies it: −25 for NEGATIVE, +10 for POSITIVE, 0 otherwise). -/
def sentiment_adjustment (sentiment : List Char) : ℚ :=
  if sentiment = "NEGATIVE".data then -25
  else if sentiment = "POSITIVE".data then 10 else 0

/-- Spec-style length adjustment term of the quality score (as the code
applies it: −10 below 60 characters, −5 above 800). -/
def length_adjustment (L : ℕ) : ℚ :=
  if L < 60 then -10 else if L > 800 then -5 else 0

/-- The positive-scenario transcript from the spec's testable properties. -/
def c8_transcript : List Char := "Thank you, the service was great and excellent!".data

theorem append_length_pos {l r : List Char} (h : 0 < l.length) :
    0 < (l ++ r).length := by
  simp only [List.length_append]
  omega

theorem short_supervisor_summary_length_pos (call_id sent : List Char)
    (score : ℚ) (text : List Char) :
    0 < (short_supervisor_summary call_id sent score text).length := by
  dsimp only [short_supervisor_summary]
  split_ifs
  all_goals repeat apply append_length_pos
  all_goals decide

theorem short_customer_message_length_pos (name sent : List Char) :
    0 < (short_customer_message name sent).length := by
  dsimp only [short_customer_message]
  split_ifs
  all_goals repeat apply append_length_pos
  all_goals decide

theorem review_reason_calc_eq (b : Bool) (sent : List Char) :
    review_reason_calc b sent =
      if b then
        (if sent = "NEGATIVE".data then "LOW_SCORE, NEG_SENTIMENT".data
         else "LOW_SCORE".data)
      else
        (if sent = "NEGATIVE".data then "NEG_SENTIMENT".data else "OK".data) := by
  cases b <;> by_cases h : sent = "NEGATIVE".data <;>
    simp [review_reason_calc, h] <;> decide

theorem process_call_sentiment (t id name ch : List Char) (th : ℚ) (ts : List Char) :
    (process_call t id name ch th ts).sentiment =
      (analyze_sentiment (clean_text t)).1 := rfl

theorem process_call_quality_score (t id name ch : List Char) (th : ℚ) (ts : List Char) :
    (process_call t id name ch th ts).quality_score =
      quality_score (clean_text t) (analyze_sentiment (clean_text t)).1 := rfl

theorem process_call_needs_review (t id name ch : List Char) (th : ℚ) (ts : List Char) :
    (process_call t id name ch th ts).needs_review =
      decide (quality_score (clean_text t) (analyze_sentiment (clean_text t)).1 < th) := rfl

theorem process_call_review_reason (t id name ch : List Char) (th : ℚ) (ts : List Char) :
    (process_call t id name ch th ts).review_reason =
      review_reason_calc
        (decide (quality_score (clean_text t) (analyze_sentiment (clean_text t)).1 < th))
        (analyze_sentiment (clean_text t)).1 := rfl

theorem process_call_supervisor_summary (t id name ch : List Char) (th : ℚ) (ts : List Char) :
    (process_call t id name ch th ts).supervisor_summary =
      short_supervisor_summary id (analyze_sentiment (clean_text t)).1
        (quality_score (clean_text t) (analyze_sentiment (clean_text t)).1)
        (clean_text t) := rfl

theorem process_call_customer_message (t id name ch : List Char) (th : ℚ) (ts : List Char) :
    (process_call t id name ch th ts).customer_message =
      short_customer_message name (analyze_sentiment (clean_text t)).1 := rfl

theorem round2_div100 (k : ℕ) : round2 ((k : ℚ) / 100) = (k : ℚ) / 100 := by
  unfold round2
  rw [div_mul_cancel₀ _ (by norm_num : (100:ℚ) ≠ 0), round_natCast]
  push_cast
  ring

theorem qs_empty : quality_score [] "NEUTRAL".data = 60 := by
  have h1 : countHits NEGATIVE_WORDS (lowerStr []) = 0 := by decide
  simp only [quality_score, h1]
  norm_num [round1, round_ofNat]

theorem qs_hello : quality_score "hello".data "NEUTRAL".data = 60 := by
  have h1 : countHits NEGATIVE_WORDS (lowerStr "hello".data) = 0 := by decide
  simp only [quality_score, h1]
  norm_num [round1, round_ofNat]

theorem qs_angry : quality_score "angry".data "NEGATIVE".data = 30 := by
  have h1 : countHits NEGATIVE_WORDS (lowerStr "angry".data) = 1 := by decide
  simp only [quality_score, h1]
  norm_num [round1, round_ofNat]

theorem qs_c8 :
    quality_score "thank you, the service was great and excellent!".data
      "POSITIVE".data = 70 := by
  have h1 : countHits NEGATIVE_WORDS
      (lowerStr "thank you, the service was great and excellent!".data) = 0 := by decide
  simp only [quality_score, h1]
  rw [if_neg (by decide : ¬("POSITIVE".data = "NEGATIVE".data))]
  norm_num [round1, round_ofNat]

theorem conf_angry5 :
    (analyze_sentiment "angry frustrated upset happy great".data).2 = 19/20 := by
  have hn : countHits NEGATIVE_WORDS
      (clean_text "angry frustrated upset happy great".data) = 3 := by decide
  have hp : countHits POSITIVE_WORDS
      (clean_text "angry frustrated upset happy great".data) = 2 := by decide
  simp only [analyze_sentiment, hn, hp]
  norm_num [round2, round_ofNat, min_def]

theorem ne_NEG_POS : "NEGATIVE".data ≠ "POSITIVE".data := by decide

theorem ne_NEG_NEU : "NEGATIVE".data ≠ "NEUTRAL".data := by decide

theorem ne_POS_NEU : "POSITIVE".data ≠ "NEUTRAL".data := by decide

theorem analyze_sentiment_label_negative (text : List Char) :
    (analyze_sentiment text).1 = "NEGATIVE".data ↔
      countHits POSITIVE_WORDS (clean_text text) < countHits NEGATIVE_WORDS (clean_text text) := by
  simp only [analyze_sentiment, gt_iff_lt]
  set neg := countHits NEGATIVE_WORDS (clean_text text)
  set pos := countHits POSITIVE_WORDS (clean_text text)
  by_cases h1 : pos < neg
  · simp [if_pos h1, h1]
  · rw [if_neg h1]
    by_cases h2 : neg < pos
    · rw [if_pos h2]
      simp [Ne.symm ne_NEG_POS, h1]
    · rw [if_neg h2]
      simp [Ne.symm ne_NEG_NEU, h1]

theorem analyze_sentiment_label_positive (text : List Char) :
    (analyze_sentiment text).1 = "POSITIVE".data ↔
      countHits NEGATIVE_WORDS (clean_text text) < countHits POSITIVE_WORDS (clean_text text) := by
  simp only [analyze_sentiment, gt_iff_lt]
  set neg := countHits NEGATIVE_WORDS (clean_text text)
  set pos := countHits POSITIVE_WORDS (clean_text text)
  by_cases h1 : pos < neg
  · rw [if_pos h1]
    simp [ne_NEG_POS, Nat.lt_asymm h1]
  · rw [if_neg h1]
    by_cases h2 : neg < pos
    · simp [if_pos h2, h2]
    · rw [if_neg h2]
      simp [Ne.symm ne_POS_NEU, h2]

theorem analyze_sentiment_label_neutral (text : List Char) :
    (analyze_sentiment text).1 = "NEUTRAL".data ↔
      countHits NEGATIVE_WORDS (clean_text text) = countHits POSITIVE_WORDS (clean_text text) := by
  simp only [analyze_sentiment, gt_iff_lt]
  set neg := countHits NEGATIVE_WORDS (clean_text text)
  set pos := countHits POSITIVE_WORDS (clean_text text)
  by_cases h1 : pos < neg
  · rw [if_pos h1]
    simp [ne_NEG_NEU, Nat.ne_of_gt h1]
  · rw [if_neg h1]
    by_cases h2 : neg < pos
    · rw [if_pos h2]
      simp [ne_POS_NEU, Nat.ne_of_lt h2]
    · rw [if_neg h2]
      simp [Nat.le_antisymm (Nat.le_of_not_lt h1) (Nat.le_of_not_lt h2)]

theorem analyze_sentiment_conf (text : List Char) :
    (analyze_sentiment text).2 =
      (if countHits NEGATIVE_WORDS (clean_text text) +
          countHits POSITIVE_WORDS (clean_text text) = 0 then 1/2
       else round2 (min (95/100) (1/2 + (1/10) *
         ((countHits NEGATIVE_WORDS (clean_text text) +
           countHits POSITIVE_WORDS (clean_text text) : ℕ) : ℚ)))) := by
  simp only [analyze_sentiment]
  by_cases h : countHits NEGATIVE_WORDS (clean_text text) +
      countHits POSITIVE_WORDS (clean_text text) = 0
  · rw [if_pos h, if_pos h]
    norm_num [round2, round_ofNat]
  · rw [if_neg h, if_neg h]

/-- C1: the claim's scoring constants do not match the code.  At the
empty input the claim requires the fixed neutral default 50.0, but
`quality_score` has no empty-text short-circuit and yields
70 (base) − 10 (short-length penalty) = 60. -/
theorem C1_counterexample :
    quality_score [] "NEUTRAL".data = 60 ∧ (50 : ℚ) < 60 :=
  ⟨qs_empty, by norm_num⟩

/-- C1 (amended): the quality score is base 70 plus a sentiment
adjustment (−25 NEGATIVE / +10 POSITIVE / 0 otherwise), plus a length
adjustment (−10 under 60 characters, −5 over 800), minus 5 per distinct
negative keyword present, rounded to one decimal and clamped to
`[0, 100]`; there is no empty-text short-circuit. -/
theorem C1_quality_score_amended (text sentiment : List Char) :
    quality_score text sentiment =
      max 0 (min 100 (round1 (70 + sentiment_adjustment sentiment +
        length_adjustment text.length -
        5 * (countHits NEGATIVE_WORDS (lowerStr text) : ℚ)))) := by
  simp only [quality_score, sentiment_adjustment, length_adjustment]
  split_ifs <;> ring_nf

/-- C2: the claim's classifier thresholds and confidence formulas do not
match the code.  On a text with 3 negative and 2 positive keyword hits
the claim requires NEUTRAL with confidence 0.5 (since 3 is not greater
than 2·1.5), but the code compares the plain counts and returns
NEGATIVE with confidence min(0.95, 0.5 + 0.1·5) = 0.95. -/
theorem C2_counterexample :
    (analyze_sentiment "angry frustrated upset happy great".data).1 = "NEGATIVE".data ∧
    (analyze_sentiment "angry frustrated upset happy great".data).2 = 19/20 ∧
    "NEGATIVE".data ≠ "NEUTRAL".data ∧ (1:ℚ)/2 < 19/20 := by
  refine ⟨by decide, conf_angry5, by decide, by norm_num⟩

/-- C2 (amended): the label is NEGATIVE exactly when the negative-keyword
presence count exceeds the positive one, POSITIVE exactly when the
positive count exceeds the negative one, NEUTRAL exactly on ties; the
confidence is 0.5 when no keyword is present and otherwise
min(0.95, 0.5 + 0.1·(neg + pos)) rounded to two decimals, independent of
the label. -/
theorem C2_analyze_sentiment_amended (text : List Char) :
    ((analyze_sentiment text).1 = "NEGATIVE".data ↔
      countHits POSITIVE_WORDS (clean_text text) < countHits NEGATIVE_WORDS (clean_text text)) ∧
    ((analyze_sentiment text).1 = "POSITIVE".data ↔
      countHits NEGATIVE_WORDS (clean_text text) < countHits POSITIVE_WORDS (clean_text text)) ∧
    ((analyze_sentiment text).1 = "NEUTRAL".data ↔
      countHits NEGATIVE_WORDS (clean_text text) = countHits POSITIVE_WORDS (clean_text text)) ∧
    (analyze_sentiment text).2 =
      (if countHits NEGATIVE_WORDS (clean_text text) +
          countHits POSITIVE_WORDS (clean_text text) = 0 then 1/2
       else round2 (min (95/100) (1/2 + (1/10) *
         ((countHits NEGATIVE_WORDS (clean_text text) +
           countHits POSITIVE_WORDS (clean_text text) : ℕ) : ℚ)))) :=
  ⟨analyze_sentiment_label_negative text, analyze_sentiment_label_positive text,
   analyze_sentiment_label_neutral text, analyze_sentiment_conf text⟩

/-- C3: a processed call needs review exactly when its quality score is
strictly below the review threshold. -/
theorem C3_needs_review_iff (t id name ch : List Char) (th : ℚ) (ts : List Char) :
    (process_call t id name ch th ts).needs_review = true ↔
    (process_call t id name ch th ts).quality_score < th := by
  simp [process_call]

/-- C4: the quality score is always within `[0, 100]`, for every input
text and every sentiment label. -/
theorem C4_quality_score_bounds (text sentiment : List Char) :
    0 ≤ quality_score text sentiment ∧ quality_score text sentiment ≤ 100 := by
  unfold quality_score
  exact ⟨le_max_left _ _, max_le (by norm_num) (min_le_left _ _)⟩

/-- C5: the claim that messages are generated only when the call needs
review does not match the code: `short_supervisor_summary` and
`short_customer_message` are invoked unconditionally.  The transcript
"hello" with threshold 0 is not flagged, yet both message fields are
non-empty. -/
theorem C5_counterexample :
    (process_call "hello".data "C1".data [] "Text Transcript".data 0 "t".data).needs_review = false ∧
    0 < (process_call "hello".data "C1".data [] "Text Transcript".data 0 "t".data).supervisor_summary.length ∧
    0 < (process_call "hello".data "C1".data [] "Text Transcript".data 0 "t".data).customer_message.length := by
  have hc : clean_text "hello".data = "hello".data := by decide
  have hl : (analyze_sentiment "hello".data).1 = "NEUTRAL".data := by decide
  refine ⟨?_, ?_, ?_⟩
  · rw [process_call_needs_review, hc, hl, qs_hello]
    decide
  · rw [process_call_supervisor_summary]
    exact short_supervisor_summary_length_pos _ _ _ _
  · rw [process_call_customer_message]
    exact short_customer_message_length_pos _ _

/-- C5 (amended): both the supervisor summary and the customer message
are generated for every processed call and are always non-empty,
regardless of the needs-review flag. -/
theorem C5_messages_always_nonempty (t id name ch : List Char) (th : ℚ) (ts : List Char) :
    0 < (process_call t id name ch th ts).supervisor_summary.length ∧
    0 < (process_call t id name ch th ts).customer_message.length := by
  constructor
  · rw [process_call_supervisor_summary]
    exact short_supervisor_summary_length_pos _ _ _ _
  · rw [process_call_customer_message]
    exact short_customer_message_length_pos _ _

/-- C6: the claim that `review_flags = OK` exactly when the call needs no
review does not match the code: a NEGATIVE call whose score clears the
threshold gets the flag `NEG_SENTIMENT` while `needs_review` is false.
The transcript "angry" (score 30) with threshold 20 shows this. -/
theorem C6_counterexample :
    (process_call "angry".data "C1".data [] "Text Transcript".data 20 "t".data).needs_review = false ∧
    (process_call "angry".data "C1".data [] "Text Transcript".data 20 "t".data).review_reason = "NEG_SENTIMENT".data ∧
    "NEG_SENTIMENT".data ≠ "OK".data := by
  have hc : clean_text "angry".data = "angry".data := by decide
  have hl : (analyze_sentiment "angry".data).1 = "NEGATIVE".data := by decide
  refine ⟨?_, ?_, by decide⟩
  · rw [process_call_needs_review, hc, hl, qs_angry]
    decide
  · rw [process_call_review_reason, hc, hl, qs_angry]
    decide

/-- C6 (amended): `review_reason` is the sentinel `OK` exactly when the
call neither needs review nor is NEGATIVE; otherwise it is the
comma-separated accumulation with `LOW_SCORE` (present iff the call
needs review) preceding `NEG_SENTIMENT` (present iff the label is
NEGATIVE). -/
theorem C6_review_reason_characterization (t id name ch : List Char) (th : ℚ) (ts : List Char) :
    (process_call t id name ch th ts).review_reason =
      if (process_call t id name ch th ts).needs_review then
        (if (process_call t id name ch th ts).sentiment = "NEGATIVE".data
         then "LOW_SCORE, NEG_SENTIMENT".data else "LOW_SCORE".data)
      else
        (if (process_call t id name ch th ts).sentiment = "NEGATIVE".data
         then "NEG_SENTIMENT".data else "OK".data) := by
  rw [process_call_review_reason, process_call_needs_review, process_call_sentiment]
  exact review_reason_calc_eq _ _

/-- C8: in the positive scenario the claim's expected score 75 does not
match the code, which scores 70 (base 70 + 10 sentiment − 10 length,
the cleaned text being 47 < 60 characters), and both message fields are
non-empty rather than empty. -/
theorem C8_counterexample :
    (process_call c8_transcript "CALL-001".data [] "Text Transcript".data 70 "t".data).quality_score = 70 ∧
    (70 : ℚ) < 75 ∧
    0 < (process_call c8_transcript "CALL-001".data [] "Text Transcript".data 70 "t".data).supervisor_summary.length ∧
    0 < (process_call c8_transcript "CALL-001".data [] "Text Transcript".data 70 "t".data).customer_message.length := by
  have hc : clean_text c8_transcript =
      "thank you, the service was great and excellent!".data := by decide
  have hl : (analyze_sentiment "thank you, the service was great and excellent!".data).1 =
      "POSITIVE".data := by decide
  refine ⟨?_, by norm_num, ?_, ?_⟩
  · rw [process_call_quality_score, hc, hl, qs_c8]
  · rw [process_call_supervisor_summary]
    exact short_supervisor_summary_length_pos _ _ _ _
  · rw [process_call_customer_message]
    exact short_customer_message_length_pos _ _

/-- C8 (amended): the positive scenario yields at least 2 positive
keyword hits, label POSITIVE, quality score exactly 70 (base 70 + 10
sentiment − 10 short-length penalty), needs_review false at threshold
70, review flags `OK`, and both message fields non-empty. -/
theorem C8_scenario_amended :
    2 ≤ countHits POSITIVE_WORDS (clean_text c8_transcript) ∧
    (process_call c8_transcript "CALL-001".data [] "Text Transcript".data 70 "t".data).sentiment = "POSITIVE".data ∧
    (process_call c8_transcript "CALL-001".data [] "Text Transcript".data 70 "t".data).quality_score = 70 ∧
    (process_call c8_transcript "CALL-001".data [] "Text Transcript".data 70 "t".data).needs_review = false ∧
    (process_call c8_transcript "CALL-001".data [] "Text Transcript".data 70 "t".data).review_reason = "OK".data ∧
    0 < (process_call c8_transcript "CALL-001".data [] "Text Transcript".data 70 "t".data).supervisor_summary.length ∧
    0 < (process_call c8_transcript "CALL-001".data [] "Text Transcript".data 70 "t".data).customer_message.length := by
  have hc : clean_text c8_transcript =
      "thank you, the service was great and excellent!".data := by decide
  have hl : (analyze_sentiment "thank you, the service was great and excellent!".data).1 =
      "POSITIVE".data := by decide
  refine ⟨by decide, ?_, ?_, ?_, ?_, ?_, ?_⟩
  · rw [process_call_sentiment, hc, hl]
  · rw [process_call_quality_score, hc, hl, qs_c8]
  · rw [process_call_needs_review, hc, hl, qs_c8]
    decide
  · rw [process_call_review_reason, hc, hl, qs_c8]
    decide
  · rw [process_call_supervisor_summary]
    exact short_supervisor_summary_length_pos _ _ _ _
  · rw [process_call_customer_message]
    exact short_customer_message_length_pos _ _

/-- C9: the sentiment label, confidence, quality score, needs-review
flag and review flags of a processed call depend only on the transcript
(and threshold), not on the call id, customer name or timestamp. -/
theorem C9_metadata_independent (t ch : List Char) (th : ℚ)
    (id1 name1 ts1 id2 name2 ts2 : List Char) :
    (process_call t id1 name1 ch th ts1).sentiment = (process_call t id2 name2 ch th ts2).sentiment ∧
    (process_call t id1 name1 ch th ts1).sentiment_confidence = (process_call t id2 name2 ch th ts2).sentiment_confidence ∧
    (process_call t id1 name1 ch th ts1).quality_score = (process_call t id2 name2 ch th ts2).quality_score ∧
    (process_call t id1 name1 ch th ts1).needs_review = (process_call t id2 name2 ch th ts2).needs_review ∧
    (process_call t id1 name1 ch th ts1).review_reason = (process_call t id2 name2 ch th ts2).review_reason :=
  ⟨rfl, rfl, rfl, rfl, rfl⟩

/-- C10: the sentiment confidence is always an integer number of
hundredths (it is rounded to two decimals) lying within `[0.5, 0.95]`. -/
theorem C10_confidence_bounds (text : List Char) :
    ∃ n : ℕ, (analyze_sentiment text).2 = (n : ℚ) / 100 ∧ 50 ≤ n ∧ n ≤ 95 := by
  simp only [analyze_sentiment]
  set neg := countHits NEGATIVE_WORDS (clean_text text) with hneg
  set pos := countHits POSITIVE_WORDS (clean_text text) with hpos
  by_cases h : neg + pos = 0
  · refine ⟨50, ?_, by norm_num, by norm_num⟩
    rw [if_pos h]
    norm_num [round2, round_ofNat]
  · refine ⟨min 95 (50 + 10 * (neg + pos)), ?_, le_min (by norm_num) (by omega),
      min_le_left _ _⟩
    rw [if_neg h]
    have e1 : (1:ℚ)/2 + (1/10) * ((neg + pos : ℕ) : ℚ) =
        ((50 + 10 * (neg + pos) : ℕ) : ℚ) / 100 := by
      push_cast
      ring
    have e2 : (95:ℚ)/100 = ((95:ℕ) : ℚ)/100 := by norm_num
    rw [e1, e2, min_div_div_right (by norm_num : (0:ℚ) ≤ 100), ← Nat.cast_min]
    exact round2_div100 _

theorem char_toNat_ofNat {n : ℕ} (h : n.isValidChar) : (Char.ofNat n).toNat = n := by
  unfold Char.ofNat
  rw [dif_pos h]
  rfl

theorem toLower_toNat (c : Char) :
    (Char.toLower c).toNat =
      if 65 ≤ c.toNat ∧ c.toNat ≤ 90 then c.toNat + 32 else c.toNat := by
  simp only [Char.toLower]
  split_ifs with h
  · exact char_toNat_ofNat (Or.inl (by omega))
  · rfl

theorem toLower_eq_self {c : Char} (h : ¬(65 ≤ c.toNat ∧ c.toNat ≤ 90)) :
    Char.toLower c = c := by
  simp only [Char.toLower]
  rw [if_neg h]

theorem toLower_idem (c : Char) :
    Char.toLower (Char.toLower c) = Char.toLower c := by
  by_cases h : 65 ≤ c.toNat ∧ c.toNat ≤ 90
  · apply toLower_eq_self
    rw [toLower_toNat, if_pos h]
    omega
  · simp only [toLower_eq_self h]

theorem isSpaceChar_toLower (c : Char) :
    isSpaceChar (Char.toLower c) = isSpaceChar c := by
  by_cases h : 65 ≤ c.toNat ∧ c.toNat ≤ 90
  · have h2 : (Char.toLower c).toNat = c.toNat + 32 := by
      rw [toLower_toNat, if_pos h]
    have hA : isSpaceChar (Char.toLower c) = false := by
      unfold isSpaceChar
      rw [h2]
      simp only [Bool.or_eq_false_iff, beq_eq_false_iff_ne]
      omega
    have hB : isSpaceChar c = false := by
      unfold isSpaceChar
      simp only [Bool.or_eq_false_iff, beq_eq_false_iff_ne]
      omega
    rw [hA, hB]
  · rw [toLower_eq_self h]

theorem spacesBlank_collapseWS : ∀ l : List Char, spacesBlank (collapseWS l)
  | [] => by
      intro c hc
      simp [collapseWS] at hc
  | [c] => by
      intro x hx hs
      unfold collapseWS at hx
      by_cases h : isSpaceChar c = true
      · rw [if_pos h] at hx
        simp at hx
        subst hx
        rfl
      · rw [if_neg h] at hx
        simp at hx
        subst hx
        exact absurd hs h
  | a :: b :: rest => by
      intro x hx hs
      unfold collapseWS at hx
      by_cases h : (isSpaceChar a && isSpaceChar b) = true
      · rw [if_pos h] at hx
        exact spacesBlank_collapseWS (b :: rest) x hx hs
      · rw [if_neg h] at hx
        rcases List.mem_cons.mp hx with hx | hx
        · subst hx
          by_cases ha : isSpaceChar a = true
          · rw [if_pos ha]
          · rw [if_neg ha] at hs ⊢
            exact absurd hs ha
        · exact spacesBlank_collapseWS (b :: rest) x hx hs

theorem head_collapseWS_nonspace (b : Char) (rest : List Char)
    (hb : isSpaceChar b = false) :
    ∃ t, collapseWS (b :: rest) = b :: t := by
  cases rest with
  | nil => exact ⟨[], by simp [collapseWS, hb]⟩
  | cons e r => exact ⟨collapseWS (e :: r), by simp [collapseWS, hb]⟩

theorem noAdjSpace_collapseWS : ∀ l : List Char, noAdjSpace (collapseWS l)
  | [] => by simp [collapseWS, noAdjSpace]
  | [c] => by
      unfold collapseWS noAdjSpace
      split_ifs <;> exact List.chain'_singleton _
  | a :: b :: rest => by
      unfold collapseWS
      by_cases h : (isSpaceChar a && isSpaceChar b) = true
      · rw [if_pos h]
        exact noAdjSpace_collapseWS (b :: rest)
      · rw [if_neg h]
        have htail := noAdjSpace_collapseWS (b :: rest)
        unfold noAdjSpace at htail ⊢
        rw [List.chain'_cons']
        refine ⟨?_, htail⟩
        intro y hy
        by_cases ha : isSpaceChar a = true
        · have hb : isSpaceChar b = false := by
            cases hsb : isSpaceChar b
            · rfl
            · exact absurd (by rw [Bool.and_eq_true]; exact ⟨ha, hsb⟩) h
          obtain ⟨t, ht⟩ := head_collapseWS_nonspace b rest hb
          rw [ht] at hy
          simp at hy
          subst hy
          rintro ⟨_, h2⟩
          simp [hb] at h2
        · rw [if_neg ha]
          rintro ⟨h1, _⟩
          exact ha h1

theorem collapseWS_fix : ∀ l : List Char, spacesBlank l → noAdjSpace l → collapseWS l = l
  | [], _, _ => rfl
  | [c], hb, _ => by
      unfold collapseWS
      by_cases h : isSpaceChar c = true
      · rw [if_pos h, hb c (by simp) h]
      · rw [if_neg h]
  | a :: b :: rest, hb, hA => by
      unfold collapseWS
      have hpair : ¬(isSpaceChar a = true ∧ isSpaceChar b = true) :=
        (List.chain'_cons.mp hA).1
      have hnadj : ¬(isSpaceChar a && isSpaceChar b) = true := by
        rw [Bool.and_eq_true]
        exact hpair
      rw [if_neg hnadj]
      have hhead : (if isSpaceChar a then ' ' else a) = a := by
        by_cases ha : isSpaceChar a = true
        · rw [if_pos ha, hb a (by simp) ha]
        · rw [if_neg ha]
      rw [hhead]
      have htail : collapseWS (b :: rest) = b :: rest :=
        collapseWS_fix (b :: rest)
          (fun c hc hs => hb c (List.mem_cons_of_mem a hc) hs)
          (List.chain'_cons.mp hA).2
      rw [htail]

theorem stripLeft_head : ∀ (l : List Char) (c : Char),
    (stripLeft l).head? = some c → isSpaceChar c = false
  | [], c, h => by simp [stripLeft] at h
  | a :: t, c, h => by
      unfold stripLeft at h
      rw [List.dropWhile_cons] at h
      by_cases ha : isSpaceChar a = true
      · rw [if_pos ha] at h
        exact stripLeft_head t c h
      · rw [if_neg ha] at h
        simp only [List.head?_cons, Option.some.injEq] at h
        subst h
        simpa using ha

theorem getLast?_of_suffix {l m : List Char} (h : l <:+ m) (hne : l ≠ []) :
    l.getLast? = m.getLast? := by
  obtain ⟨t, rfl⟩ := h
  rcases hl : l.getLast? with _ | c
  · exact absurd (List.getLast?_eq_none_iff.mp hl) hne
  · rw [List.getLast?_append, hl]
    rfl

theorem stripLeft_eq_self {l : List Char}
    (h : ∀ c, l.head? = some c → isSpaceChar c = false) :
    stripLeft l = l := by
  cases l with
  | nil => rfl
  | cons a t =>
      unfold stripLeft
      rw [List.dropWhile_cons, if_neg (by simp [h a rfl])]

theorem stripRight_eq_self {l : List Char}
    (hl : ∀ c, l.getLast? = some c → isSpaceChar c = false) :
    stripRight l = l := by
  have h : ∀ c, l.reverse.head? = some c → isSpaceChar c = false :=
    fun c hc => hl c (by rwa [List.head?_reverse] at hc)
  unfold stripRight
  rw [stripLeft_eq_self h, List.reverse_reverse]

theorem strip_eq_self {l : List Char}
    (hh : ∀ c, l.head? = some c → isSpaceChar c = false)
    (hl : ∀ c, l.getLast? = some c → isSpaceChar c = false) :
    strip l = l := by
  unfold strip
  rw [stripLeft_eq_self hh, stripRight_eq_self hl]

theorem strip_head (l : List Char) :
    ∀ c, (strip l).head? = some c → isSpaceChar c = false := by
  intro c hc
  unfold strip stripRight at hc
  rw [List.head?_reverse] at hc
  have hs : stripLeft ((stripLeft l).reverse) <:+ (stripLeft l).reverse :=
    List.dropWhile_suffix _
  have hne : stripLeft ((stripLeft l).reverse) ≠ [] := by
    intro h0
    rw [h0] at hc
    simp at hc
  rw [getLast?_of_suffix hs hne, List.getLast?_reverse] at hc
  exact stripLeft_head l c hc

theorem strip_last (l : List Char) :
    ∀ c, (strip l).getLast? = some c → isSpaceChar c = false := by
  intro c hc
  unfold strip stripRight at hc
  rw [List.getLast?_reverse] at hc
  exact stripLeft_head _ c hc

theorem spacesBlank_stripLeft {l : List Char} (h : spacesBlank l) :
    spacesBlank (stripLeft l) :=
  fun c hc => h c ((List.dropWhile_sublist _).subset hc)

theorem spacesBlank_reverse {l : List Char} (h : spacesBlank l) :
    spacesBlank l.reverse :=
  fun c hc => h c (List.mem_reverse.mp hc)

theorem spacesBlank_strip {l : List Char} (h : spacesBlank l) :
    spacesBlank (strip l) :=
  spacesBlank_reverse (spacesBlank_stripLeft (spacesBlank_reverse (spacesBlank_stripLeft h)))

theorem noAdjSpace_stripLeft {l : List Char} (h : noAdjSpace l) :
    noAdjSpace (stripLeft l) :=
  List.Chain'.suffix h (List.dropWhile_suffix _)

theorem noAdjSpace_reverse {l : List Char} (h : noAdjSpace l) :
    noAdjSpace l.reverse := by
  unfold noAdjSpace at h ⊢
  rw [List.chain'_reverse]
  exact h.imp fun a b hab => fun ⟨x, y⟩ => hab ⟨y, x⟩

theorem noAdjSpace_strip {l : List Char} (h : noAdjSpace l) :
    noAdjSpace (strip l) :=
  noAdjSpace_reverse (noAdjSpace_stripLeft (noAdjSpace_reverse (noAdjSpace_stripLeft h)))

theorem spacesBlank_lowerStr {l : List Char} (h : spacesBlank l) :
    spacesBlank (lowerStr l) := by
  intro c hc hs
  unfold lowerStr at hc
  rw [List.mem_map] at hc
  obtain ⟨a, ha, rfl⟩ := hc
  rw [isSpaceChar_toLower] at hs
  rw [h a ha hs]
  rfl

theorem noAdjSpace_lowerStr {l : List Char} (h : noAdjSpace l) :
    noAdjSpace (lowerStr l) := by
  unfold noAdjSpace at h ⊢
  unfold lowerStr
  rw [List.chain'_map]
  exact h.imp fun a b hab => by
    rw [isSpaceChar_toLower, isSpaceChar_toLower]
    exact hab

theorem lowerStr_idem (l : List Char) : lowerStr (lowerStr l) = lowerStr l := by
  unfold lowerStr
  rw [List.map_map]
  exact List.map_congr_left fun a _ => toLower_idem a

/-- C7: `clean_text` is idempotent: cleaning an already-cleaned text
leaves it unchanged (whitespace runs are already single spaces, there is
no leading or trailing whitespace, and lowercasing is idempotent). -/
theorem C7_clean_text_idempotent (s : List Char) :
    clean_text (clean_text s) = clean_text s := by
  set t := clean_text s with ht
  by_cases h0 : t = []
  · unfold clean_text
    rw [if_pos h0, h0]
  · have hs0 : s ≠ [] := by
      intro h
      apply h0
      rw [ht, h]
      rfl
    have htt : t = lowerStr (strip (collapseWS s)) := by
      rw [ht]
      unfold clean_text
      rw [if_neg hs0]
    have hsb : spacesBlank t :=
      htt ▸ spacesBlank_lowerStr (spacesBlank_strip (spacesBlank_collapseWS s))
    have hna : noAdjSpace t :=
      htt ▸ noAdjSpace_lowerStr (noAdjSpace_strip (noAdjSpace_collapseWS s))
    have hhead : ∀ c, t.head? = some c → isSpaceChar c = false := by
      intro c hc
      rw [htt] at hc
      unfold lowerStr at hc
      rw [List.head?_map] at hc
      cases hh : (strip (collapseWS s)).head? with
      | none =>
          rw [hh] at hc
          simp at hc
      | some a =>
          rw [hh] at hc
          simp at hc
          rw [← hc, isSpaceChar_toLower]
          exact strip_head _ a hh
    have hlast : ∀ c, t.getLast? = some c → isSpaceChar c = false := by
      intro c hc
      rw [htt] at hc
      unfold lowerStr at hc
      rw [List.getLast?_map] at hc
      cases hh : (strip (collapseWS s)).getLast? with
      | none =>
          rw [hh] at hc
          simp at hc
      | some a =>
          rw [hh] at hc
          simp at hc
          rw [← hc, isSpaceChar_toLower]
          exact strip_last _ a hh
    unfold clean_text
    rw [if_neg h0, collapseWS_fix t hsb hna, strip_eq_self hhead hlast, htt,
      lowerStr_idem]
